import Mathlib

/-!
Verification development for the Argos repository-tree-item (RTI) core.

The definitions below are a shallow embedding of the lazy-loading RTI
lifecycle implemented in src/libargos/repo/baserti.py and
src/libargos/repo/filesytemrti.py:

* `Rti` is the per-node mutable state (`_isOpen`, `_exception`,
  `_childrenFetched`, `_fileName`) plus instrumentation counters that record
  how many times each overridable hook and the close method were invoked.
* `Hooks` packages the behaviour of the variant-supplied hooks
  `_openResources`, `_closeResources` and `_fetchAllChildren`; a hook either
  succeeds or raises a Python exception, and `_fetchAllChildren` may also
  return a value that is not a sequence (which the caller asserts against).
* `openRti`, `closeRti`, `fetchChildren` translate `BaseRti.open`,
  `BaseRti.close` and `BaseRti.fetchChildren` statement by statement,
  including the DEBUGGING (fail-fast) switch: each returns the produced
  value or the propagated exception (`POut`) together with the state of the
  node when control leaves the method.
* Paths are modelled as plain strings; os.path.abspath is treated as the
  identity (the model quantifies over already-absolute names), and the file
  system is an abstract pair of predicates `Fs.isFile` / `Fs.isDir` with
  os.path.exists being their disjunction.
-/

/-- Python exception values that the RTI code can raise or capture. -/
inductive PyErr where
  | ioError (msg : String)
  | assertionError (msg : String)
  | hookError (tag : Nat)
deriving Repr, DecidableEq

/-- Result of a Python method call: either a returned value or an exception
that propagated out of the method. -/
inductive POut (α : Type) where
  | val (a : α)
  | raised (e : PyErr)
deriving Repr, DecidableEq

/-- State of one BaseRti node: the attributes set in BaseRti.__init__ and by
AbstractLazyLoadTreeItem (the lazy-load flag), plus invocation counters for
the overridable hooks and for the close method (pure instrumentation: they
record the trace and influence nothing). -/
structure Rti where
  fileName : String
  isOpen : Bool
  exception : Option PyErr
  childrenFetched : Bool
  openResCalls : Nat
  closeResCalls : Nat
  fetchAllCalls : Nat
  closeCalls : Nat
deriving Repr, DecidableEq

/-- A freshly constructed node: _isOpen = False, _exception = None, and the
lazy-load flag _childrenFetched starts False. -/
def initRti (fileName : String) : Rti :=
  { fileName := fileName
    isOpen := false
    exception := none
    childrenFetched := false
    openResCalls := 0
    closeResCalls := 0
    fetchAllCalls := 0
    closeCalls := 0 }

/-- What _fetchAllChildren returned: a proper Python sequence (list/tuple) of
child items, or some other object (is_a_sequence is False on it). -/
inductive FetchRet (C : Type) where
  | seq (items : List C)
  | nonSeq (tag : Nat)
deriving Repr, DecidableEq

/-- Behaviour of the three overridable hooks of a concrete RTI variant.
A value of `none` / `Except.ok` means the hook runs without raising;
`some e` / `Except.error e` means the hook raises exception e. -/
structure Hooks (C : Type) where
  openRes : Option PyErr
  closeRes : Option PyErr
  fetchAll : Except PyErr (FetchRet C)

/-- The hooks of BaseRti itself (and of every variant in the repository that
does not override them): _openResources and _closeResources do nothing,
_fetchAllChildren returns the empty list. -/
def defaultHooks (C : Type) : Hooks C :=
  { openRes := none
    closeRes := none
    fetchAll := Except.ok (FetchRet.seq []) }

/-- Body of the try-block of BaseRti.open: if already open, close the
resources first and unset _isOpen; then the sanity assert, then
_openResources and setting _isOpen. An error carries the node state at the
moment the exception was raised. -/
def openTry {C : Type} (h : Hooks C) (s : Rti) : Except (PyErr × Rti) Rti :=
  let step1 : Except (PyErr × Rti) Rti :=
    if s.isOpen then
      let s1 := { s with closeResCalls := s.closeResCalls + 1 }
      match h.closeRes with
      | some e => Except.error (e, s1)
      | none => Except.ok { s1 with isOpen := false }
    else
      Except.ok s
  match step1 with
  | Except.error es => Except.error es
  | Except.ok s1 =>
    if s1.isOpen then
      Except.error (PyErr.assertionError "Sanity check failed: _isOpen should be false", s1)
    else
      let s2 := { s1 with openResCalls := s1.openResCalls + 1 }
      match h.openRes with
      | some e => Except.error (e, s2)
      | none => Except.ok { s2 with isOpen := true }

/-- BaseRti.open: clears the stored exception, runs the try-block, and on an
exception either re-raises it (DEBUGGING mode) or captures it on the node
and returns normally. -/
def openRti {C : Type} (dbg : Bool) (h : Hooks C) (s0 : Rti) : POut Unit × Rti :=
  let s := { s0 with exception := none }
  match openTry h s with
  | Except.ok s1 => (POut.val (), s1)
  | Except.error (e, s1) =>
    if dbg then (POut.raised e, s1)
    else (POut.val (), { s1 with exception := some e })

/-- BaseRti.close: clears the stored exception; if the node is open it runs
_closeResources and then unsets _isOpen (so a hook exception leaves _isOpen
untouched); closing an already closed node only logs. An exception is
re-raised in DEBUGGING mode and captured otherwise. The closeCalls counter
records that the method was invoked. -/
def closeRti {C : Type} (dbg : Bool) (h : Hooks C) (s0 : Rti) : POut Unit × Rti :=
  let s := { s0 with exception := none, closeCalls := s0.closeCalls + 1 }
  if s.isOpen then
    let s1 := { s with closeResCalls := s.closeResCalls + 1 }
    match h.closeRes with
    | none => (POut.val (), { s1 with isOpen := false })
    | some e =>
      if dbg then (POut.raised e, s1)
      else (POut.val (), { s1 with exception := some e })
  else
    (POut.val (), s)

/-- BaseRti._checkFileExists: when the node has a file name and the path does
not exist, store a File-not-found IOError on the node and return False;
otherwise return True. -/
structure Fs where
  isFile : String → Bool
  isDir : String → Bool

/-- os.path.exists: true for existing regular files and directories. -/
def Fs.pathExists (fs : Fs) (p : String) : Bool :=
  fs.isFile p || fs.isDir p

def checkFileExists (fs : Fs) (s : Rti) : Bool × Rti :=
  if s.fileName != "" && !(fs.pathExists s.fileName) then
    (false, { s with exception := some (PyErr.ioError ("File not found: " ++ s.fileName)) })
  else
    (true, s)

/-- BaseRti.fetchChildren: asserts the canFetchChildren precondition (this
assert sits outside the try-block, so it propagates in every mode), clears
the exception, opens the node if necessary, aborts with an empty list when
opening failed (marking the node fetched), and otherwise runs
_fetchAllChildren inside a try-block whose is_a_sequence assert and hook
exceptions are captured in non-DEBUGGING mode. On a captured exception the
method returns the local childItems variable: the empty list when the hook
raised, or the raw non-sequence value when the hook returned one. -/
def fetchChildren {C : Type} (dbg : Bool) (h : Hooks C) (s0 : Rti) :
    POut (FetchRet C) × Rti :=
  if s0.childrenFetched then
    (POut.raised (PyErr.assertionError "canFetchChildren must be True"), s0)
  else
    let s := { s0 with exception := none }
    match (if s.isOpen then (POut.val (), s) else openRti dbg h s) with
    | (POut.raised e, s1) => (POut.raised e, s1)
    | (POut.val _, s1) =>
      if !s1.isOpen then
        (POut.val (FetchRet.seq []), { s1 with childrenFetched := true })
      else
        let s2 := { s1 with fetchAllCalls := s1.fetchAllCalls + 1 }
        match h.fetchAll with
        | Except.error e =>
          if dbg then (POut.raised e, s2)
          else (POut.val (FetchRet.seq []), { s2 with exception := some e })
        | Except.ok (FetchRet.seq xs) =>
          (POut.val (FetchRet.seq xs), { s2 with childrenFetched := true })
        | Except.ok (FetchRet.nonSeq tag) =>
          if dbg then
            (POut.raised (PyErr.assertionError "ChildItems must be a sequence"), s2)
          else
            (POut.val (FetchRet.nonSeq tag),
             { s2 with exception := some (PyErr.assertionError "ChildItems must be a sequence") })

/-!
Embedding of src/libargos/repo/filesytemrti.py: the constructor contract
checks of UnknownFileRti and DirectoryRti, and the directory child
enumeration hook DirectoryRti._fetchAllChildren. A directory listing is a
list of entries in the order os.listdir returned them, each carrying the
kind that os.path.isdir / os.path.isfile report for its absolute path.
-/

/-- What the file system says about one entry of a directory listing. -/
inductive EntryKind where
  | dir
  | file
  | other
deriving Repr, DecidableEq

/-- One entry of os.listdir output, with its file-system kind. -/
structure FsEntry where
  name : String
  kind : EntryKind
deriving Repr, DecidableEq

/-- A child node produced by DirectoryRti._fetchAllChildren: a DirectoryRti
for a subdirectory or an UnknownFileRti for a regular file. -/
inductive FsChild where
  | dirRti (name : String)
  | unknownFileRti (name : String)
deriving Repr, DecidableEq

/-- The name of a produced child node. -/
def FsChild.name : FsChild → String
  | FsChild.dirRti n => n
  | FsChild.unknownFileRti n => n

/-- First loop of DirectoryRti._fetchAllChildren: append a DirectoryRti for
every non-hidden subdirectory, in listing order. -/
def addSubDirs : List FsEntry → List FsChild
  | [] => []
  | e :: es =>
    if e.kind = EntryKind.dir && !(e.name.startsWith ".") then
      FsChild.dirRti e.name :: addSubDirs es
    else
      addSubDirs es

/-- Second loop of DirectoryRti._fetchAllChildren: append an UnknownFileRti
for every non-hidden regular file, in listing order. -/
def addRegularFiles : List FsEntry → List FsChild
  | [] => []
  | e :: es =>
    if e.kind = EntryKind.file && !(e.name.startsWith ".") then
      FsChild.unknownFileRti e.name :: addRegularFiles es
    else
      addRegularFiles es

/-- DirectoryRti._fetchAllChildren: subdirectories first, then regular
files, each group in listing order, hidden names excluded. -/
def fetchAllChildrenDir (listing : List FsEntry) : List FsChild :=
  addSubDirs listing ++ addRegularFiles listing

/-- UnknownFileRti.__init__: after the BaseRti constructor it asserts that
the path is a regular file. -/
def mkUnknownFileRti (fs : Fs) (fileName : String) : Except PyErr Rti :=
  if fs.isFile fileName then
    Except.ok (initRti fileName)
  else
    Except.error (PyErr.assertionError ("Not a regular file: " ++ fileName))

/-- DirectoryRti.__init__: after the BaseRti constructor, when the given
file name is non-empty it asserts that the path is a directory; an empty
name (virtual root) is accepted unchecked. -/
def mkDirectoryRti (fs : Fs) (fileName : String) : Except PyErr Rti :=
  if fileName != "" && !(fs.isDir fileName) then
    Except.error (PyErr.assertionError ("Not a directory: " ++ fileName))
  else
    Except.ok (initRti fileName)

/-- True when a constructor run ended in its contract-check AssertionError. -/
def raisesAssertion {α : Type} : Except PyErr α → Bool
  | Except.error (PyErr.assertionError _) => true
  | _ => false

/-!
Embedding of the array accessors of BaseRti: _asArray returns None in the
base implementation and an array-like object (carrying a shape) in
overriding variants; arrayShape, nDims and isSliceable are derived from it
exactly as in the source.
-/

/-- An array-like object as far as the base class uses it: its shape. -/
structure ArrayLike where
  shape : List Nat
deriving Repr, DecidableEq

/-- BaseRti.arrayShape: the empty tuple when _asArray is None, otherwise the
shape of the underlying array. -/
def arrayShape (asArray : Option ArrayLike) : List Nat :=
  match asArray with
  | none => []
  | some a => a.shape

/-- BaseRti.nDims: len(self.arrayShape). -/
def nDims (asArray : Option ArrayLike) : Nat :=
  (arrayShape asArray).length

/-- BaseRti.isSliceable: self.nDims > 0. -/
def isSliceable (asArray : Option ArrayLike) : Bool :=
  decide (0 < nDims asArray)

/-!
Embedding of BaseRti.finalize over a tree of nodes. finalize iterates over
self.childItems, finalizing each child recursively, and then closes self;
closeTrace records the order in which the close calls are issued, each node
identified by a numeric label. All RTI variants in the repository inherit
the default no-op _closeResources, which the close hypotheses reflect.
-/

/-- A fetched RTI subtree: a node label (for the trace), the node state and
the fetched children in order. -/
inductive RtiTree where
  | node (nid : Nat) (st : Rti) (children : List RtiTree)

/-- The label of the root node. -/
def rootId : RtiTree → Nat
  | RtiTree.node i _ _ => i

/-- The state of the root node. -/
def rootSt : RtiTree → Rti
  | RtiTree.node _ r _ => r

/-- The fetched children of the root node. -/
def childrenOf : RtiTree → List RtiTree
  | RtiTree.node _ _ cs => cs

mutual

/-- All node labels of a subtree, root first. -/
def nodeIds : RtiTree → List Nat
  | RtiTree.node i _ cs => i :: nodeIdsList cs

/-- All node labels of a forest, in order. -/
def nodeIdsList : List RtiTree → List Nat
  | [] => []
  | t :: ts => nodeIds t ++ nodeIdsList ts

end

mutual

/-- All node states of a subtree, root first. -/
def statesOf : RtiTree → List Rti
  | RtiTree.node _ r cs => r :: statesOfList cs

/-- All node states of a forest, in order. -/
def statesOfList : List RtiTree → List Rti
  | [] => []
  | t :: ts => statesOf t ++ statesOfList ts

end

mutual

/-- BaseRti.finalize applied to a subtree: finalize every child first, then
close the root (children of a node are finalized left to right). -/
def finalizeTree (dbg : Bool) (h : Hooks Unit) : RtiTree → RtiTree
  | RtiTree.node i r cs =>
    RtiTree.node i (closeRti dbg h r).2 (finalizeList dbg h cs)

/-- finalize over a forest of children, left to right. -/
def finalizeList (dbg : Bool) (h : Hooks Unit) : List RtiTree → List RtiTree
  | [] => []
  | t :: ts => finalizeTree dbg h t :: finalizeList dbg h ts

end

mutual

/-- The order in which finalize issues close calls on a subtree: the traces
of the children in order, then the root. -/
def closeTrace : RtiTree → List Nat
  | RtiTree.node i _ cs => closeTraceList cs ++ [i]

/-- Close order over a forest of children, left to right. -/
def closeTraceList : List RtiTree → List Nat
  | [] => []
  | t :: ts => closeTrace t ++ closeTraceList ts

end

/-- s is a subtree of t (t itself, or a subtree of one of its children). -/
inductive Subtree : RtiTree → RtiTree → Prop
  | refl (t : RtiTree) : Subtree t t
  | child (s c : RtiTree) (i : Nat) (r : Rti) (cs : List RtiTree) :
      c ∈ cs → Subtree s c → Subtree s (RtiTree.node i r cs)

/-- Modelled from the spec: the hooks of a format-specific reader RTI. The
reader modules themselves are not under src/; per the spec, a path-backed
node verifies its path on open (checkResourceExists, here checkFileExists)
and any failure from the resource-open hook is a captured error, so the
modelled _openResources raises the File-not-found IOError exactly when the
path does not exist. -/
def fileReaderHooks (fs : Fs) (p : String) : Hooks Unit :=
  { openRes :=
      if fs.pathExists p then none
      else some (PyErr.ioError ("File not found: " ++ p))
    closeRes := none
    fetchAll := Except.ok (FetchRet.seq []) }

/-- A file system on which no path exists. -/
def emptyFs : Fs :=
  { isFile := fun _ => false
    isDir := fun _ => false }

/-- Hooks of a variant whose _closeResources raises. -/
def failCloseHooks : Hooks Unit :=
  { openRes := none
    closeRes := some (PyErr.hookError 0)
    fetchAll := Except.ok (FetchRet.seq []) }

/-- Hooks of a variant whose _fetchAllChildren returns a non-sequence. -/
def nonSeqHooks : Hooks Unit :=
  { openRes := none
    closeRes := none
    fetchAll := Except.ok (FetchRet.nonSeq 7) }

/-- An open node over some backing file. -/
def openNode : Rti :=
  { initRti "data.h5" with isOpen := true }

/-- A root with two levels of fetched children. -/
def sampleTree : RtiTree :=
  RtiTree.node 0 (initRti "")
    [RtiTree.node 1 (initRti "") [RtiTree.node 3 (initRti "") []],
     RtiTree.node 2 (initRti "") []]

/-- Claim C6: for every RTI node at all times, nDims equals the length of
arrayShape and isSliceable equals (nDims > 0), including in the default
state where asArray is None, nDims is 0 and arrayShape is the empty
tuple. -/
theorem nDims_arrayShape_invariant :
    ∀ asArray : Option ArrayLike,
      nDims asArray = (arrayShape asArray).length ∧
      (isSliceable asArray = true ↔ 0 < nDims asArray) ∧
      nDims none = 0 ∧ arrayShape none = ([] : List Nat) := by
  intro asArray
  refine ⟨rfl, ?_, rfl, rfl⟩
  simp [isSliceable]

/-- A file system with one directory (plots) and one regular file
(notes.txt). -/
def mixedFs : Fs :=
  { isFile := fun p => p == "notes.txt"
    isDir := fun p => p == "plots" }

/-- Claim C9: constructing an UnknownFileRti over a path that is not a
regular file (for example a directory) fails the contract check;
constructing a DirectoryRti over a non-empty path that is not a directory
(for example a regular file) fails likewise; an empty path is permitted for
a DirectoryRti (virtual root). Each contract check depends only on the
predicate its assert consults, so a directory path refutes the first and a
regular-file path the second. -/
theorem construction_contract_checks (fs : Fs) (p : String) :
    (fs.isFile p = false → raisesAssertion (mkUnknownFileRti fs p) = true) ∧
    (p ≠ "" → fs.isDir p = false → raisesAssertion (mkDirectoryRti fs p) = true) ∧
    mkDirectoryRti fs "" = Except.ok (initRti "") := by
  refine ⟨?_, ?_, ?_⟩
  · intro hf
    simp [mkUnknownFileRti, hf, raisesAssertion]
  · intro hne hd
    have hbne : (p != "") = true := by simp [bne_iff_ne, hne]
    simp [mkDirectoryRti, hd, hbne, raisesAssertion]
  · simp [mkDirectoryRti]

/-- Witness for C9 at the scenarios the spec names: an Unknown-file node
over a path that is actually a directory, a Directory node over a path that
is actually a regular file, and a Directory node over the empty path. -/
theorem construction_contract_checks_witness :
    mixedFs.isDir "plots" = true ∧ mixedFs.isFile "plots" = false ∧
    raisesAssertion (mkUnknownFileRti mixedFs "plots") = true ∧
    mixedFs.isFile "notes.txt" = true ∧ mixedFs.isDir "notes.txt" = false ∧
    raisesAssertion (mkDirectoryRti mixedFs "notes.txt") = true ∧
    mkDirectoryRti mixedFs "" = Except.ok (initRti "") := by
  have h1 := construction_contract_checks mixedFs "plots"
  have h2 := construction_contract_checks mixedFs "notes.txt"
  exact ⟨by decide, by decide, h1.1 (by decide), by decide, by decide,
    h2.2.1 (by decide) (by decide), h1.2.2⟩

/-- Claim C2: for every node whose fileName refers to a path that does not
exist, open() in non-strict mode returns normally, leaves isOpen false and
captures the File-not-found exception; checkFileExists on such a node
returns false. The resource-open hook is the spec-modelled reader hook. -/
theorem open_missing_file (fs : Fs) (p : String) (s : Rti)
    (hex : fs.pathExists p = false) (hne : p ≠ "") :
    (openRti false (fileReaderHooks fs p) s).1 = POut.val () ∧
    ((openRti false (fileReaderHooks fs p) s).2).isOpen = false ∧
    ((openRti false (fileReaderHooks fs p) s).2).exception =
      some (PyErr.ioError ("File not found: " ++ p)) ∧
    (checkFileExists fs { s with fileName := p }).1 = false := by
  have hbne : (p != "") = true := by simp [bne_iff_ne, hne]
  cases hso : s.isOpen <;>
    simp [openRti, openTry, fileReaderHooks, checkFileExists, hex, hbne, hso]

/-- Witness for C2 at a concrete missing path. -/
theorem open_missing_file_witness :
    emptyFs.pathExists "gone.nc" = false ∧
    (openRti false (fileReaderHooks emptyFs "gone.nc") (initRti "gone.nc")).1 = POut.val () ∧
    ((openRti false (fileReaderHooks emptyFs "gone.nc") (initRti "gone.nc")).2).isOpen = false ∧
    ((openRti false (fileReaderHooks emptyFs "gone.nc") (initRti "gone.nc")).2).exception =
      some (PyErr.ioError ("File not found: " ++ "gone.nc")) := by
  have h := open_missing_file emptyFs "gone.nc" (initRti "gone.nc") rfl (by decide)
  exact ⟨rfl, h.1, h.2.1, h.2.2.1⟩

/-- Claim C5: for every non-open node whose open() attempt fails during
fetchChildren(), fetchChildren() returns an empty child sequence, marks the
node fetched despite the failure, and never invokes the enumeration
hook. -/
theorem fetch_open_failure {C : Type} (h : Hooks C) (s : Rti) (e : PyErr)
    (hcf : s.childrenFetched = false) (hop : s.isOpen = false)
    (hfail : h.openRes = some e) :
    (fetchChildren false h s).1 = POut.val (FetchRet.seq []) ∧
    ((fetchChildren false h s).2).childrenFetched = true ∧
    ((fetchChildren false h s).2).isOpen = false ∧
    ((fetchChildren false h s).2).fetchAllCalls = s.fetchAllCalls := by
  simp [fetchChildren, openRti, openTry, hcf, hop, hfail]

/-- Witness for C5: the spec-modelled reader over a missing file. -/
theorem fetch_open_failure_witness :
    (initRti "lost.h5").childrenFetched = false ∧
    (initRti "lost.h5").isOpen = false ∧
    (fileReaderHooks emptyFs "lost.h5").openRes =
      some (PyErr.ioError ("File not found: " ++ "lost.h5")) ∧
    (fetchChildren false (fileReaderHooks emptyFs "lost.h5") (initRti "lost.h5")).1 =
      POut.val (FetchRet.seq []) ∧
    ((fetchChildren false (fileReaderHooks emptyFs "lost.h5") (initRti "lost.h5")).2).childrenFetched = true := by
  have h := fetch_open_failure (fileReaderHooks emptyFs "lost.h5") (initRti "lost.h5")
    (PyErr.ioError ("File not found: " ++ "lost.h5")) rfl rfl rfl
  exact ⟨rfl, rfl, rfl, h.1, h.2.1⟩

/-- Claim C7: for every RTI node whose close hook does not raise (the
repository variants all inherit the no-op default), calling close() twice
in a row captures no exception and leaves isOpen false after each of the
two calls; the second close on an already-closed node is not an error. -/
theorem double_close_safe {C : Type} (dbg : Bool) (h : Hooks C) (s : Rti)
    (hc : h.closeRes = none) :
    (closeRti dbg h s).1 = POut.val () ∧
    ((closeRti dbg h s).2).exception = none ∧
    ((closeRti dbg h s).2).isOpen = false ∧
    (closeRti dbg h ((closeRti dbg h s).2)).1 = POut.val () ∧
    ((closeRti dbg h ((closeRti dbg h s).2)).2).exception = none ∧
    ((closeRti dbg h ((closeRti dbg h s).2)).2).isOpen = false := by
  cases hso : s.isOpen <;> simp [closeRti, hc, hso]

/-- Witness for C7: double close of an open BaseRti node. -/
theorem double_close_safe_witness :
    (defaultHooks Unit).closeRes = none ∧
    ((closeRti false (defaultHooks Unit) openNode).2).isOpen = false ∧
    ((closeRti false (defaultHooks Unit) ((closeRti false (defaultHooks Unit) openNode).2)).2).isOpen = false := by
  have h := double_close_safe false (defaultHooks Unit) openNode rfl
  exact ⟨rfl, h.2.2.1, h.2.2.2.2.2⟩

/-- Counterexample to C3: on an open node whose release hook raises,
close() in non-strict mode captures the error and returns normally, but the
node does NOT transition to closed: isOpen is still true afterwards. -/
theorem close_error_leaves_open_cex :
    (closeRti false failCloseHooks openNode).1 = POut.val () ∧
    ((closeRti false failCloseHooks openNode).2).exception = some (PyErr.hookError 0) ∧
    ((closeRti false failCloseHooks openNode).2).isOpen = true := by
  decide

/-- Claim C3 as amended: if the resource-release hook fails during close()
in non-strict mode, the error is captured as non-fatal and the call returns
normally, but the node remains open: the isOpen flag is only unset after
the hook returns, so it stays true when the hook raises. -/
theorem close_error_captured_remains_open {C : Type} (h : Hooks C) (s : Rti)
    (e : PyErr) (hc : h.closeRes = some e) (ho : s.isOpen = true) :
    (closeRti false h s).1 = POut.val () ∧
    ((closeRti false h s).2).exception = some e ∧
    ((closeRti false h s).2).isOpen = true := by
  simp [closeRti, hc, ho]

/-- Witness for amended C3 at the concrete failing hook. -/
theorem close_error_captured_remains_open_witness :
    failCloseHooks.closeRes = some (PyErr.hookError 0) ∧ openNode.isOpen = true ∧
    ((closeRti false failCloseHooks openNode).2).exception = some (PyErr.hookError 0) ∧
    ((closeRti false failCloseHooks openNode).2).isOpen = true := by
  have h := close_error_captured_remains_open failCloseHooks openNode (PyErr.hookError 0) rfl rfl
  exact ⟨rfl, rfl, h.2.1, h.2.2⟩

/-- Counterexample to C10: when the enumeration hook returns a non-sequence,
fetchChildren() in non-strict mode captures the assertion error but returns
the raw non-sequence value, not an empty list. -/
theorem fetch_nonseq_returns_raw_cex :
    (fetchChildren false nonSeqHooks (initRti "f.dat")).1 = POut.val (FetchRet.nonSeq 7) ∧
    ((fetchChildren false nonSeqHooks (initRti "f.dat")).2).exception =
      some (PyErr.assertionError "ChildItems must be a sequence") ∧
    ¬ (fetchChildren false nonSeqHooks (initRti "f.dat")).1 = POut.val (FetchRet.seq []) := by
  decide

/-- Claim C10 as amended: for a node that opens successfully but whose
enumeration hook fails, fetchChildren() in non-strict mode captures the
exception and childrenFetched remains false (so a later call passes the
guard and invokes the hook again); the returned value is the empty list
when the hook raised, but the raw non-sequence value when the hook returned
one. -/
theorem fetch_hook_failure_not_marked {C : Type} (h : Hooks C) (s : Rti)
    (hcf : s.childrenFetched = false) (hopen : h.openRes = none) :
    (∀ e, h.fetchAll = Except.error e →
      (fetchChildren false h s).1 = POut.val (FetchRet.seq []) ∧
      ((fetchChildren false h s).2).exception = some e ∧
      ((fetchChildren false h s).2).childrenFetched = false) ∧
    (∀ tag, h.fetchAll = Except.ok (FetchRet.nonSeq tag) →
      (fetchChildren false h s).1 = POut.val (FetchRet.nonSeq tag) ∧
      ((fetchChildren false h s).2).exception =
        some (PyErr.assertionError "ChildItems must be a sequence") ∧
      ((fetchChildren false h s).2).childrenFetched = false) ∧
    (∀ s1 : Rti, s1.childrenFetched = false → s1.isOpen = true →
      ((fetchChildren false h s1).2).fetchAllCalls = s1.fetchAllCalls + 1) := by
  refine ⟨?_, ?_, ?_⟩
  · intro e hfa
    cases hso : s.isOpen <;>
      simp [fetchChildren, openRti, openTry, hcf, hso, hopen, hfa]
  · intro tag hfa
    cases hso : s.isOpen <;>
      simp [fetchChildren, openRti, openTry, hcf, hso, hopen, hfa]
  · intro s1 hcf1 hso1
    rcases hfa : h.fetchAll with e | ret
    · simp [fetchChildren, hcf1, hso1, hfa]
    · cases ret <;> simp [fetchChildren, hcf1, hso1, hfa]

/-- Witness for amended C10 at the concrete non-sequence hook. -/
theorem fetch_hook_failure_not_marked_witness :
    (initRti "f.dat").childrenFetched = false ∧ nonSeqHooks.openRes = none ∧
    (fetchChildren false nonSeqHooks (initRti "f.dat")).1 = POut.val (FetchRet.nonSeq 7) ∧
    ((fetchChildren false nonSeqHooks (initRti "f.dat")).2).childrenFetched = false := by
  have h := (fetch_hook_failure_not_marked nonSeqHooks (initRti "f.dat") rfl rfl).2.1 7 rfl
  exact ⟨rfl, rfl, h.1, h.2.2⟩

/-- The enumeration hook runs at most once during one fetchChildren call. -/
theorem fetchAllCalls_le {C : Type} (dbg : Bool) (h : Hooks C) (s : Rti) :
    ((fetchChildren dbg h s).2).fetchAllCalls ≤ s.fetchAllCalls + 1 := by
  rcases hfa : h.fetchAll with e | ret
  · cases hso : s.isOpen <;> rcases hor : h.openRes with _ | e1 <;> cases dbg <;>
      simp [fetchChildren, openRti, openTry, hfa, hso, hor] <;>
      split <;> simp
  · cases ret <;> cases hso : s.isOpen <;> rcases hor : h.openRes with _ | e1 <;> cases dbg <;>
      simp [fetchChildren, openRti, openTry, hfa, hso, hor] <;>
      split <;> simp

/-- Counterexample to C1: after a successful fetchChildren() on a BaseRti,
the first call returned the empty child list, but a second direct call is
not a no-op returning the cached children: the canFetchChildren guard
assertion raises. -/
theorem fetch_twice_raises_cex :
    (fetchChildren false (defaultHooks Unit) (initRti "root.dat")).1 =
      POut.val (FetchRet.seq []) ∧
    (fetchChildren false (defaultHooks Unit)
        ((fetchChildren false (defaultHooks Unit) (initRti "root.dat")).2)).1 =
      POut.raised (PyErr.assertionError "canFetchChildren must be True") := by
  decide

/-- Claim C1 as amended: fetchChildren() requires canFetchChildren — the
childrenFetched guard is an assert outside the try-block. After a first
call that marks the node fetched, a second direct call raises the guard
AssertionError in every mode and leaves the state unchanged (so it
re-executes no side effects), instead of returning the cached children; the
enumeration hook is triggered at most once across both calls. -/
theorem fetch_second_call_asserts {C : Type} (dbg : Bool) (h : Hooks C) (s : Rti)
    (hfetched : ((fetchChildren dbg h s).2).childrenFetched = true) :
    fetchChildren dbg h ((fetchChildren dbg h s).2) =
      (POut.raised (PyErr.assertionError "canFetchChildren must be True"),
       (fetchChildren dbg h s).2) ∧
    ((fetchChildren dbg h s).2).fetchAllCalls ≤ s.fetchAllCalls + 1 := by
  constructor
  · generalize (fetchChildren dbg h s).2 = s1 at hfetched ⊢
    simp [fetchChildren, hfetched]
  · exact fetchAllCalls_le dbg h s

/-- Witness for amended C1: a BaseRti fetched once, then fetched again. -/
theorem fetch_second_call_asserts_witness :
    ((fetchChildren false (defaultHooks Unit) (initRti "base.dat")).2).childrenFetched = true ∧
    fetchChildren false (defaultHooks Unit)
        ((fetchChildren false (defaultHooks Unit) (initRti "base.dat")).2) =
      (POut.raised (PyErr.assertionError "canFetchChildren must be True"),
       (fetchChildren false (defaultHooks Unit) (initRti "base.dat")).2) := by
  have h := fetch_second_call_asserts false (defaultHooks Unit) (initRti "base.dat") (by decide)
  exact ⟨by decide, h.1⟩

/-- The subdirectory loop keeps exactly the non-hidden directory entries,
in listing order, as DirectoryRti nodes. -/
theorem addSubDirs_eq (l : List FsEntry) :
    addSubDirs l =
      (l.filter (fun e => e.kind = EntryKind.dir && !(e.name.startsWith "."))).map
        (fun e => FsChild.dirRti e.name) := by
  induction l with
  | nil => rfl
  | cons e es ih =>
    by_cases hk : (e.kind = EntryKind.dir && !(e.name.startsWith ".")) = true
    · simp [addSubDirs, List.filter, hk, ih]
    · simp [addSubDirs, List.filter, hk, ih]

/-- The regular-file loop keeps exactly the non-hidden file entries, in
listing order, as UnknownFileRti nodes. -/
theorem addRegularFiles_eq (l : List FsEntry) :
    addRegularFiles l =
      (l.filter (fun e => e.kind = EntryKind.file && !(e.name.startsWith "."))).map
        (fun e => FsChild.unknownFileRti e.name) := by
  induction l with
  | nil => rfl
  | cons e es ih =>
    by_cases hk : (e.kind = EntryKind.file && !(e.name.startsWith ".")) = true
    · simp [addRegularFiles, List.filter, hk, ih]
    · simp [addRegularFiles, List.filter, hk, ih]

/-- Claim C4: for every directory RTI, fetchChildren (via the enumeration
hook) returns exactly the non-hidden immediate entries: subdirectory nodes
first, then Unknown-file nodes for the regular files, each group in the
order of the underlying listing, and no child whose name starts with the
hidden marker dot ever appears. -/
theorem directory_children_spec (listing : List FsEntry) :
    fetchAllChildrenDir listing =
      (listing.filter (fun e => e.kind = EntryKind.dir && !(e.name.startsWith "."))).map
        (fun e => FsChild.dirRti e.name) ++
      (listing.filter (fun e => e.kind = EntryKind.file && !(e.name.startsWith "."))).map
        (fun e => FsChild.unknownFileRti e.name) ∧
    ∀ c ∈ fetchAllChildrenDir listing, (FsChild.name c).startsWith "." = false := by
  have heq : fetchAllChildrenDir listing =
      (listing.filter (fun e => e.kind = EntryKind.dir && !(e.name.startsWith "."))).map
        (fun e => FsChild.dirRti e.name) ++
      (listing.filter (fun e => e.kind = EntryKind.file && !(e.name.startsWith "."))).map
        (fun e => FsChild.unknownFileRti e.name) := by
    rw [fetchAllChildrenDir, addSubDirs_eq, addRegularFiles_eq]
  refine ⟨heq, ?_⟩
  intro c hc
  rw [heq] at hc
  rcases List.mem_append.mp hc with hmem | hmem <;>
  · rcases List.mem_map.mp hmem with ⟨e, he, rfl⟩
    have := (List.mem_filter.mp he).2
    simp only [Bool.and_eq_true, Bool.not_eq_true] at this
    simpa [FsChild.name] using this.2

mutual

/-- The close trace of a subtree visits a permutation of its node labels. -/
theorem closeTrace_perm : ∀ t : RtiTree, (closeTrace t).Perm (nodeIds t)
  | RtiTree.node i r cs => by
    have hcs := closeTraceList_perm cs
    have h1 : (closeTraceList cs ++ [i]).Perm ([i] ++ closeTraceList cs) :=
      List.perm_append_comm
    have h2 : ([i] ++ closeTraceList cs).Perm (i :: nodeIdsList cs) :=
      List.Perm.cons i hcs
    simpa [closeTrace, nodeIds] using h1.trans h2

/-- The close trace of a forest visits a permutation of its node labels. -/
theorem closeTraceList_perm : ∀ ts : List RtiTree,
    (closeTraceList ts).Perm (nodeIdsList ts)
  | [] => List.Perm.refl []
  | t :: ts => by
    have h1 := closeTrace_perm t
    have h2 := closeTraceList_perm ts
    simpa [closeTraceList, nodeIdsList] using List.Perm.append h1 h2

end

/-- The close trace of a forest splits around the trace of any member. -/
theorem closeTraceList_split {c : RtiTree} :
    ∀ {cs : List RtiTree}, c ∈ cs →
      ∃ A B, closeTraceList cs = A ++ closeTrace c ++ B := by
  intro cs hmem
  induction cs with
  | nil => cases hmem
  | cons t ts ih =>
    rcases List.mem_cons.mp hmem with rfl | hmem2
    · exact ⟨[], closeTraceList ts, by simp [closeTraceList]⟩
    · rcases ih hmem2 with ⟨A, B, hAB⟩
      exact ⟨closeTrace t ++ A, B, by simp [closeTraceList, hAB]⟩

/-- Labels of a member subtree occur in the close trace of the forest. -/
theorem mem_closeTraceList {c : RtiTree} {cs : List RtiTree} {d : Nat}
    (hc : c ∈ cs) (hd : d ∈ nodeIds c) : d ∈ closeTraceList cs := by
  rcases closeTraceList_split hc with ⟨A, B, hAB⟩
  have hdc : d ∈ closeTrace c := (closeTrace_perm c).mem_iff.mpr hd
  rw [hAB]
  simp [hdc]

/-- Every subtree closes strictly after all labels of its children: the
close trace of the whole tree decomposes around the subtree root, with all
labels of the subtree children occurring earlier. -/
theorem closeTrace_subtree {s t : RtiTree} (hst : Subtree s t) :
    ∃ pre post, closeTrace t = pre ++ rootId s :: post ∧
      ∀ c ∈ childrenOf s, ∀ d ∈ nodeIds c, d ∈ pre := by
  induction hst with
  | refl =>
    cases s with
    | node i r cs =>
      refine ⟨closeTraceList cs, [], by simp [closeTrace, rootId], ?_⟩
      intro c hc d hd
      exact mem_closeTraceList hc hd
  | child c i r cs hmem hsub ih =>
    rcases ih with ⟨pre, post, htr, hpre⟩
    rcases closeTraceList_split hmem with ⟨A, B, hAB⟩
    refine ⟨A ++ pre, post ++ B ++ [i], ?_, ?_⟩
    · rw [closeTrace, hAB, htr]
      simp
    · intro c1 hc1 d hd
      have := hpre c1 hc1 d hd
      simp [this]

mutual

/-- finalize applies close to every node state of a subtree, once each. -/
theorem statesOf_finalizeTree : ∀ (dbg : Bool) (h : Hooks Unit) (t : RtiTree),
    statesOf (finalizeTree dbg h t) = (statesOf t).map (fun r => (closeRti dbg h r).2)
  | dbg, h, RtiTree.node i r cs => by
    have hcs := statesOf_finalizeList dbg h cs
    simp [finalizeTree, statesOf, hcs]

/-- finalize applies close to every node state of a forest, once each. -/
theorem statesOf_finalizeList : ∀ (dbg : Bool) (h : Hooks Unit) (ts : List RtiTree),
    statesOfList (finalizeList dbg h ts) = (statesOfList ts).map (fun r => (closeRti dbg h r).2)
  | dbg, h, [] => rfl
  | dbg, h, t :: ts => by
    have h1 := statesOf_finalizeTree dbg h t
    have h2 := statesOf_finalizeList dbg h ts
    simp [finalizeList, statesOfList, h1, h2]

end

/-- A close call with the inherited no-op release hook always leaves the
node closed with no captured exception, and counts one close invocation. -/
theorem closeRti_default {C : Type} (dbg : Bool) (h : Hooks C) (r : Rti)
    (hc : h.closeRes = none) :
    ((closeRti dbg h r).2).isOpen = false ∧
    ((closeRti dbg h r).2).exception = none ∧
    ((closeRti dbg h r).2).closeCalls = r.closeCalls + 1 := by
  cases hro : r.isOpen <;> simp [closeRti, hc, hro]

/-- Claim C8: finalize() recursively finalizes children bottom-up and then
closes the node itself: the close trace is a permutation of the node
labels, each label is closed exactly once (given distinct labels), every
subtree root closes only after all labels below its children (post-order),
and in the resulting tree every node went through exactly one close call
and ends up closed with no captured exception. -/
theorem finalize_postorder (t : RtiTree) (hnd : (nodeIds t).Nodup) :
    (closeTrace t).Perm (nodeIds t) ∧
    (∀ i ∈ nodeIds t, (closeTrace t).count i = 1) ∧
    (∀ s, Subtree s t → ∃ pre post, closeTrace t = pre ++ rootId s :: post ∧
      ∀ c ∈ childrenOf s, ∀ d ∈ nodeIds c, d ∈ pre) ∧
    (∀ (dbg : Bool) (h : Hooks Unit), h.closeRes = none →
      statesOf (finalizeTree dbg h t) = (statesOf t).map (fun r => (closeRti dbg h r).2) ∧
      ∀ r1 ∈ statesOf (finalizeTree dbg h t),
        r1.isOpen = false ∧ r1.exception = none ∧
        ∃ r0 ∈ statesOf t, r1 = (closeRti dbg h r0).2 ∧ r1.closeCalls = r0.closeCalls + 1) := by
  refine ⟨closeTrace_perm t, ?_, ?_, ?_⟩
  · intro i hi
    have := (closeTrace_perm t).count_eq i
    rw [this]
    exact List.count_eq_one_of_mem hnd hi
  · intro s hst
    exact closeTrace_subtree hst
  · intro dbg h hc
    refine ⟨statesOf_finalizeTree dbg h t, ?_⟩
    intro r1 hr1
    rw [statesOf_finalizeTree dbg h t] at hr1
    rcases List.mem_map.mp hr1 with ⟨r0, hr0, rfl⟩
    rcases closeRti_default dbg h r0 hc with ⟨h1, h2, h3⟩
    exact ⟨h1, h2, r0, hr0, rfl, h3⟩

/-- Witness for C8: a two-level tree with distinct labels. -/
theorem finalize_postorder_witness :
    (nodeIds sampleTree).Nodup ∧
    (closeTrace sampleTree).Perm (nodeIds sampleTree) ∧
    ∀ i ∈ nodeIds sampleTree, (closeTrace sampleTree).count i = 1 := by
  have h := finalize_postorder sampleTree (by decide)
  exact ⟨by decide, h.1, h.2.1⟩
